import Mathlib

/-!
Verification of the HashGrad statistical-validation scripts against their
specification.  The Python sources `scripts/param_complementarity_analyzer.py`
and `scripts/visual_collision_analyzer.py` are shallowly embedded below:
byte strings become `List Nat`, Python ints become `Nat`/`Int`, Python float
arithmetic is modelled by exact rationals `ℚ` (the spec defines every value as
an exact integer ratio), raising an exception becomes returning `Except.error`.
-/

namespace HashGrad

/-- Unsigned big-endian integer value of a list of bytes, as computed by
`struct.unpack` with the big-endian formats `>Q`, `>I`, `>H` used in
`extract_parameter_seeds`. -/
def beNat (bs : List Nat) : Nat := bs.foldl (fun acc b => acc * 256 + b) 0

/-- Python slice `bs[a:b]` on a byte list (half-open range, clamped). -/
def pySlice (bs : List Nat) (a b : Nat) : List Nat := (bs.drop a).take (b - a)

/-- The error raised by `extract_parameter_seeds` when the digest is not
exactly 32 bytes: the `ValueError` of the Python source, the spec's
`LengthError`. -/
inductive ExtractError where
  | LengthError
deriving DecidableEq

/-- A ParameterSet: the insertion-ordered name-to-value mapping built by
`extract_parameter_seeds` (a Python dict keeps insertion order). -/
abbrev ParamSeeds := List (String × ℚ)

/-- Shallow embedding of `extract_parameter_seeds` from
`scripts/param_complementarity_analyzer.py` (lines 32-93).  The length check
raises `ValueError` (`LengthError`); otherwise the eleven seeds are computed
in source order from big-endian slices of the digest, each divided by the
maximum value of its width (the hexadecimal constants of the source).  The
`struct.error`/`IndexError` catch branches of the source are unreachable once
the 32-byte check has passed and are not modelled. -/
def extract_parameter_seeds (hash_bytes : List Nat) : Except ExtractError ParamSeeds :=
  if hash_bytes.length ≠ 32 then .error .LengthError
  else .ok [
    ("angleSeed", (beNat (pySlice hash_bytes 0 8) : ℚ) / 18446744073709551615),
    ("warpFreqXSeed", (beNat (pySlice hash_bytes 8 12) : ℚ) / 4294967295),
    ("warpAmpXSeed", (beNat (pySlice hash_bytes 12 14) : ℚ) / 65535),
    ("warpPhaseXSeed", (beNat (pySlice hash_bytes 14 16) : ℚ) / 65535),
    ("warpFreqYSeed", (beNat (pySlice hash_bytes 16 20) : ℚ) / 4294967295),
    ("warpAmpYSeed", (beNat (pySlice hash_bytes 20 22) : ℚ) / 65535),
    ("warpPhaseYSeed", (beNat (pySlice hash_bytes 22 24) : ℚ) / 65535),
    ("hillFreqSeed", (beNat (pySlice hash_bytes 24 28) : ℚ) / 4294967295),
    ("hillPhaseSeed", (beNat (pySlice hash_bytes 28 30) : ℚ) / 65535),
    ("orderIndexSeed", (hash_bytes.getD 30 0 : ℚ) / 255),
    ("hillAmpSeed", (hash_bytes.getD 31 0 : ℚ) / 255)]

/-- The fixed parameter-name vocabulary, in the insertion order of the source. -/
def parameterNames : List String :=
  ["angleSeed", "warpFreqXSeed", "warpAmpXSeed", "warpPhaseXSeed", "warpFreqYSeed",
   "warpAmpYSeed", "warpPhaseYSeed", "hillFreqSeed", "hillPhaseSeed",
   "orderIndexSeed", "hillAmpSeed"]

/-- The key list of an extraction result (`None` on failure). -/
def paramKeys (r : Except ExtractError ParamSeeds) : Option (List String) :=
  match r with
  | .ok ps => some (ps.map Prod.fst)
  | .error _ => none

/-- A well-formed digest: 32 bytes, each in `[0, 256)`. -/
def ValidDigest (d : List Nat) : Prop := d.length = 32 ∧ ∀ b ∈ d, b < 256

/-- C1: on every 32-byte digest, `extract_parameter_seeds` returns exactly the
values of the spec's byte-layout table: each parameter is the big-endian
unsigned integer of its half-open byte range divided by the maximum value
representable in its width (`2 ^ 64 - 1`, `2 ^ 32 - 1`, `2 ^ 16 - 1`, `255`),
with `orderIndexSeed = byte 30 / 255` and `hillAmpSeed = byte 31 / 255`. -/
theorem extract_matches_byte_layout (d : List Nat) (h : d.length = 32) :
    extract_parameter_seeds d = .ok [
      ("angleSeed", (beNat ((d.drop 0).take 8) : ℚ) / (2 ^ 64 - 1)),
      ("warpFreqXSeed", (beNat ((d.drop 8).take 4) : ℚ) / (2 ^ 32 - 1)),
      ("warpAmpXSeed", (beNat ((d.drop 12).take 2) : ℚ) / (2 ^ 16 - 1)),
      ("warpPhaseXSeed", (beNat ((d.drop 14).take 2) : ℚ) / (2 ^ 16 - 1)),
      ("warpFreqYSeed", (beNat ((d.drop 16).take 4) : ℚ) / (2 ^ 32 - 1)),
      ("warpAmpYSeed", (beNat ((d.drop 20).take 2) : ℚ) / (2 ^ 16 - 1)),
      ("warpPhaseYSeed", (beNat ((d.drop 22).take 2) : ℚ) / (2 ^ 16 - 1)),
      ("hillFreqSeed", (beNat ((d.drop 24).take 4) : ℚ) / (2 ^ 32 - 1)),
      ("hillPhaseSeed", (beNat ((d.drop 28).take 2) : ℚ) / (2 ^ 16 - 1)),
      ("orderIndexSeed", (d.getD 30 0 : ℚ) / 255),
      ("hillAmpSeed", (d.getD 31 0 : ℚ) / 255)] := by
  simp only [extract_parameter_seeds, pySlice, h]
  norm_num

/-- Witness for C1 at the all-zero 32-byte digest. -/
theorem extract_matches_byte_layout_witness :
    (List.replicate 32 0).length = 32 ∧
    extract_parameter_seeds (List.replicate 32 0) = .ok [
      ("angleSeed", (beNat (((List.replicate 32 0).drop 0).take 8) : ℚ) / (2 ^ 64 - 1)),
      ("warpFreqXSeed", (beNat (((List.replicate 32 0).drop 8).take 4) : ℚ) / (2 ^ 32 - 1)),
      ("warpAmpXSeed", (beNat (((List.replicate 32 0).drop 12).take 2) : ℚ) / (2 ^ 16 - 1)),
      ("warpPhaseXSeed", (beNat (((List.replicate 32 0).drop 14).take 2) : ℚ) / (2 ^ 16 - 1)),
      ("warpFreqYSeed", (beNat (((List.replicate 32 0).drop 16).take 4) : ℚ) / (2 ^ 32 - 1)),
      ("warpAmpYSeed", (beNat (((List.replicate 32 0).drop 20).take 2) : ℚ) / (2 ^ 16 - 1)),
      ("warpPhaseYSeed", (beNat (((List.replicate 32 0).drop 22).take 2) : ℚ) / (2 ^ 16 - 1)),
      ("hillFreqSeed", (beNat (((List.replicate 32 0).drop 24).take 4) : ℚ) / (2 ^ 32 - 1)),
      ("hillPhaseSeed", (beNat (((List.replicate 32 0).drop 28).take 2) : ℚ) / (2 ^ 16 - 1)),
      ("orderIndexSeed", ((List.replicate 32 0).getD 30 0 : ℚ) / 255),
      ("hillAmpSeed", ((List.replicate 32 0).getD 31 0 : ℚ) / 255)] :=
  ⟨by decide, extract_matches_byte_layout (List.replicate 32 0) (by decide)⟩

/-- C2 counterexample: on the all-zero 32-byte digest, the key list of
`extract_parameter_seeds` is the fixed vocabulary, and that vocabulary has 11
names, not 10 as the claim states. -/
theorem extract_keys_eleven_not_ten :
    paramKeys (extract_parameter_seeds (List.replicate 32 0)) = some parameterNames ∧
    parameterNames.length = 11 ∧ parameterNames.length ≠ 10 := by
  refine ⟨?_, by decide, by decide⟩
  rfl

/-- C2 (amended): for every 32-byte digest, the key list of the ParameterSet
returned by `extract_parameter_seeds` is exactly the fixed vocabulary of 11
parameter names — no more, no fewer — identical for every digest. -/
theorem extract_keys_fixed_vocabulary (d : List Nat) (h : d.length = 32) :
    paramKeys (extract_parameter_seeds d) = some parameterNames ∧
    parameterNames.length = 11 := by
  refine ⟨?_, by decide⟩
  rw [extract_parameter_seeds, if_neg (by simp [h])]
  rfl

/-- Witness for C2's amended theorem at the all-zero digest. -/
theorem extract_keys_fixed_vocabulary_witness :
    (List.replicate 32 0).length = 32 ∧
    (paramKeys (extract_parameter_seeds (List.replicate 32 0)) = some parameterNames ∧
     parameterNames.length = 11) :=
  ⟨by decide, extract_keys_fixed_vocabulary (List.replicate 32 0) (by decide)⟩

/-- C4: `extract_parameter_seeds` fails with `LengthError` exactly when the
input is not 32 bytes, and on a 32-byte input returns a full ParameterSet. -/
theorem extract_length_validation (d : List Nat) :
    (d.length ≠ 32 → extract_parameter_seeds d = .error .LengthError) ∧
    (d.length = 32 → ∃ ps, extract_parameter_seeds d = .ok ps) := by
  constructor
  · intro h
    rw [extract_parameter_seeds, if_pos h]
  · intro h
    exact ⟨_, by rw [extract_parameter_seeds, if_neg (by simp [h])]⟩

/-- Witness for C4 at 31-, 33- and 32-byte inputs. -/
theorem extract_length_validation_witness :
    (List.replicate 31 0).length ≠ 32 ∧
    extract_parameter_seeds (List.replicate 31 0) = .error .LengthError ∧
    (List.replicate 33 0).length ≠ 32 ∧
    extract_parameter_seeds (List.replicate 33 0) = .error .LengthError ∧
    (List.replicate 32 0).length = 32 ∧
    ∃ ps, extract_parameter_seeds (List.replicate 32 0) = .ok ps :=
  ⟨by decide, (extract_length_validation (List.replicate 31 0)).1 (by decide),
   by decide, (extract_length_validation (List.replicate 33 0)).1 (by decide),
   by decide, (extract_length_validation (List.replicate 32 0)).2 (by decide)⟩

/-- Big-endian folding of a byte list stays below `(acc + 1) * 256 ^ length`. -/
lemma beNat_foldl_lt (bs : List Nat) (hb : ∀ b ∈ bs, b < 256) (acc : Nat) :
    bs.foldl (fun a b => a * 256 + b) acc < (acc + 1) * 256 ^ bs.length := by
  induction bs generalizing acc with
  | nil => simp
  | cons x t ih =>
    have hx : x < 256 := hb x (List.mem_cons_self x t)
    have ht : ∀ b ∈ t, b < 256 := fun b h => hb b (List.mem_cons_of_mem x h)
    calc (x :: t).foldl (fun a b => a * 256 + b) acc
        = t.foldl (fun a b => a * 256 + b) (acc * 256 + x) := rfl
      _ < (acc * 256 + x + 1) * 256 ^ t.length := ih ht (acc * 256 + x)
      _ ≤ ((acc + 1) * 256) * 256 ^ t.length := by
            exact Nat.mul_le_mul_right _ (by omega)
      _ = (acc + 1) * 256 ^ (t.length + 1) := by ring

/-- The big-endian value of a list of bytes is below `256 ^ length`. -/
lemma beNat_lt (bs : List Nat) (hb : ∀ b ∈ bs, b < 256) : beNat bs < 256 ^ bs.length := by
  calc beNat bs < (0 + 1) * 256 ^ bs.length := beNat_foldl_lt bs hb 0
    _ = 256 ^ bs.length := by ring

/-- A slice of a byte list has big-endian value at most `256 ^ width - 1`. -/
lemma beNat_pySlice_le (d : List Nat) (hb : ∀ b ∈ d, b < 256) (a c : Nat) :
    beNat (pySlice d a c) ≤ 256 ^ (c - a) - 1 := by
  have h1 : ∀ b ∈ pySlice d a c, b < 256 := fun b h =>
    hb b (List.mem_of_mem_drop (List.mem_of_mem_take h))
  have h2 : beNat (pySlice d a c) < 256 ^ (pySlice d a c).length := beNat_lt _ h1
  have h3 : (pySlice d a c).length ≤ c - a := by
    rw [pySlice]
    exact List.length_take_le (c - a) (d.drop a)
  have h4 : (256:Nat) ^ (pySlice d a c).length ≤ 256 ^ (c - a) :=
    Nat.pow_le_pow_right (by norm_num) h3
  omega

/-- Elements read with `getD` from a byte list are bytes (or the default 0). -/
lemma getD_lt_of_bytes (d : List Nat) (hb : ∀ b ∈ d, b < 256) (i : Nat) :
    d.getD i 0 < 256 := by
  rcases Nat.lt_or_ge i d.length with h | h
  · rw [List.getD_eq_getElem d 0 h]
    exact hb _ (List.getElem_mem h)
  · rw [List.getD_eq_default d 0 h]
    norm_num

/-- A nonnegative numerator at most the positive denominator gives a ratio in
the unit interval. -/
lemma ratio_mem_unit (n : Nat) (q : ℚ) (hn : (n : ℚ) ≤ q) (hq : 0 < q) :
    0 ≤ (n : ℚ) / q ∧ (n : ℚ) / q ≤ 1 := by
  constructor
  · positivity
  · rw [div_le_one hq]
    exact hn

/-- The all-zero digest yields the value 0 for every parameter. -/
lemma extract_all_zero_bytes :
    extract_parameter_seeds (List.replicate 32 0) =
      .ok (parameterNames.map (fun n => (n, (0:ℚ)))) := by
  rw [extract_parameter_seeds, if_neg (by decide)]
  have e1 : beNat (pySlice (List.replicate 32 0) 0 8) = 0 := by decide
  have e2 : beNat (pySlice (List.replicate 32 0) 8 12) = 0 := by decide
  have e3 : beNat (pySlice (List.replicate 32 0) 12 14) = 0 := by decide
  have e4 : beNat (pySlice (List.replicate 32 0) 14 16) = 0 := by decide
  have e5 : beNat (pySlice (List.replicate 32 0) 16 20) = 0 := by decide
  have e6 : beNat (pySlice (List.replicate 32 0) 20 22) = 0 := by decide
  have e7 : beNat (pySlice (List.replicate 32 0) 22 24) = 0 := by decide
  have e8 : beNat (pySlice (List.replicate 32 0) 24 28) = 0 := by decide
  have e9 : beNat (pySlice (List.replicate 32 0) 28 30) = 0 := by decide
  have e10 : (List.replicate 32 (0:ℕ)).getD 30 0 = 0 := by decide
  have e11 : (List.replicate 32 (0:ℕ)).getD 31 0 = 0 := by decide
  rw [e1, e2, e3, e4, e5, e6, e7, e8, e9, e10, e11]
  norm_num [parameterNames]

/-- The all-0xFF digest yields the value 1 for every parameter. -/
lemma extract_all_ff_bytes :
    extract_parameter_seeds (List.replicate 32 255) =
      .ok (parameterNames.map (fun n => (n, (1:ℚ)))) := by
  rw [extract_parameter_seeds, if_neg (by decide)]
  have e1 : beNat (pySlice (List.replicate 32 255) 0 8) = 18446744073709551615 := by decide
  have e2 : beNat (pySlice (List.replicate 32 255) 8 12) = 4294967295 := by decide
  have e3 : beNat (pySlice (List.replicate 32 255) 12 14) = 65535 := by decide
  have e4 : beNat (pySlice (List.replicate 32 255) 14 16) = 65535 := by decide
  have e5 : beNat (pySlice (List.replicate 32 255) 16 20) = 4294967295 := by decide
  have e6 : beNat (pySlice (List.replicate 32 255) 20 22) = 65535 := by decide
  have e7 : beNat (pySlice (List.replicate 32 255) 22 24) = 65535 := by decide
  have e8 : beNat (pySlice (List.replicate 32 255) 24 28) = 4294967295 := by decide
  have e9 : beNat (pySlice (List.replicate 32 255) 28 30) = 65535 := by decide
  have e10 : (List.replicate 32 (255:ℕ)).getD 30 0 = 255 := by decide
  have e11 : (List.replicate 32 (255:ℕ)).getD 31 0 = 255 := by decide
  rw [e1, e2, e3, e4, e5, e6, e7, e8, e9, e10, e11]
  norm_num [parameterNames]

/-- C5: every value of the ParameterSet lies in `[0, 1]`; the all-0x00 digest
yields exactly 0 for every parameter and the all-0xFF digest exactly 1. -/
theorem extract_values_unit_range (d : List Nat) (h : ValidDigest d) :
    (∀ ps, extract_parameter_seeds d = .ok ps → ∀ p ∈ ps, 0 ≤ p.2 ∧ p.2 ≤ 1) ∧
    extract_parameter_seeds (List.replicate 32 0) =
      .ok (parameterNames.map (fun n => (n, (0:ℚ)))) ∧
    extract_parameter_seeds (List.replicate 32 255) =
      .ok (parameterNames.map (fun n => (n, (1:ℚ)))) := by
  obtain ⟨hlen, hb⟩ := h
  refine ⟨?_, extract_all_zero_bytes, extract_all_ff_bytes⟩
  intro ps hps p hp
  rw [extract_parameter_seeds, if_neg (by simp [hlen])] at hps
  have hps' := (Except.ok.injEq _ _).mp hps
  subst hps'
  have slice : ∀ a c M : Nat, 256 ^ (c - a) - 1 ≤ M → 0 < M →
      0 ≤ (beNat (pySlice d a c) : ℚ) / (M : ℚ) ∧ (beNat (pySlice d a c) : ℚ) / (M : ℚ) ≤ 1 := by
    intro a c M hM hM0
    refine ratio_mem_unit _ _ ?_ (by exact_mod_cast hM0)
    exact_mod_cast le_trans (beNat_pySlice_le d hb a c) hM
  have byteD : ∀ i : Nat,
      0 ≤ (d.getD i 0 : ℚ) / (255 : ℚ) ∧ (d.getD i 0 : ℚ) / (255 : ℚ) ≤ 1 := by
    intro i
    refine ratio_mem_unit _ _ ?_ (by norm_num)
    have := getD_lt_of_bytes d hb i
    have h255 : d.getD i 0 ≤ 255 := by omega
    exact_mod_cast h255
  simp only [List.mem_cons, List.not_mem_nil, or_false] at hp
  rcases hp with rfl | rfl | rfl | rfl | rfl | rfl | rfl | rfl | rfl | rfl | rfl
  · exact slice 0 8 _ (by norm_num) (by norm_num)
  · exact slice 8 12 _ (by norm_num) (by norm_num)
  · exact slice 12 14 _ (by norm_num) (by norm_num)
  · exact slice 14 16 _ (by norm_num) (by norm_num)
  · exact slice 16 20 _ (by norm_num) (by norm_num)
  · exact slice 20 22 _ (by norm_num) (by norm_num)
  · exact slice 22 24 _ (by norm_num) (by norm_num)
  · exact slice 24 28 _ (by norm_num) (by norm_num)
  · exact slice 28 30 _ (by norm_num) (by norm_num)
  · exact byteD 30
  · exact byteD 31

/-- Witness for C5 at a concrete valid digest. -/
theorem extract_values_unit_range_witness :
    ValidDigest (List.replicate 32 7) ∧
    ((∀ ps, extract_parameter_seeds (List.replicate 32 7) = .ok ps →
        ∀ p ∈ ps, 0 ≤ p.2 ∧ p.2 ≤ 1) ∧
     extract_parameter_seeds (List.replicate 32 0) =
       .ok (parameterNames.map (fun n => (n, (0:ℚ)))) ∧
     extract_parameter_seeds (List.replicate 32 255) =
       .ok (parameterNames.map (fun n => (n, (1:ℚ))))) :=
  ⟨⟨by decide, by decide⟩,
   extract_values_unit_range (List.replicate 32 7) ⟨by decide, by decide⟩⟩

/-- Error raised by `hamming_distance` on tokens of unequal length (the
`ValueError` of `scripts/visual_collision_analyzer.py` line 33, the spec's
`LengthMismatchError`). -/
inductive HammingError where
  | LengthMismatchError
deriving DecidableEq

/-- Count of differing positions of two tokens, as computed by
`sum(c1 != c2 for c1, c2 in zip(s1, s2))` (line 38). -/
def diffCount (s1 s2 : List Char) : Nat :=
  (s1.zip s2).countP (fun p => p.1 ≠ p.2)

/-- Shallow embedding of `hamming_distance` (lines 30-38): raise on a length
mismatch, else count differing positions. -/
def hamming_distance (s1 s2 : List Char) : Except HammingError Nat :=
  if s1.length ≠ s2.length then .error .LengthMismatchError
  else .ok (diffCount s1 s2)

lemma diffCount_cons (x y : Char) (xs ys : List Char) :
    diffCount (x :: xs) (y :: ys) = diffCount xs ys + (if x = y then 0 else 1) := by
  rw [diffCount, List.zip_cons_cons, List.countP_cons, diffCount]
  by_cases hxy : x = y <;> simp [hxy]

lemma diffCount_comm (a b : List Char) : diffCount a b = diffCount b a := by
  induction a generalizing b with
  | nil => cases b <;> rfl
  | cons x xs ih =>
    cases b with
    | nil => rfl
    | cons y ys =>
      rw [diffCount_cons, diffCount_cons, ih ys]
      by_cases hxy : x = y
      · rw [if_pos hxy, if_pos hxy.symm]
      · rw [if_neg hxy, if_neg (fun h => hxy h.symm)]

lemma diffCount_eq_zero_iff (a b : List Char) (h : a.length = b.length) :
    diffCount a b = 0 ↔ a = b := by
  induction a generalizing b with
  | nil =>
    cases b with
    | nil => simp [diffCount]
    | cons y ys => simp at h
  | cons x xs ih =>
    cases b with
    | nil => simp at h
    | cons y ys =>
      have h' : xs.length = ys.length := by simpa using h
      rw [diffCount_cons]
      by_cases hxy : x = y
      · subst hxy
        simp [ih ys h']
      · simp [hxy]

/-- C7: `hamming_distance` is symmetric; on equal-length tokens it returns 0
iff the tokens are identical; on unequal-length tokens it fails with
`LengthMismatchError` and never returns a number. -/
theorem hamming_distance_properties (a b : List Char) :
    hamming_distance a b = hamming_distance b a ∧
    (a.length = b.length → (hamming_distance a b = .ok 0 ↔ a = b)) ∧
    (a.length ≠ b.length →
      hamming_distance a b = .error .LengthMismatchError ∧
      ∀ n : Nat, hamming_distance a b ≠ .ok n) := by
  refine ⟨?_, ?_, ?_⟩
  · by_cases h : a.length = b.length
    · rw [hamming_distance, if_neg (by omega), hamming_distance, if_neg (by omega),
        diffCount_comm]
    · rw [hamming_distance, if_pos h, hamming_distance, if_pos (by omega)]
  · intro h
    rw [hamming_distance, if_neg (by omega)]
    simp [diffCount_eq_zero_iff a b h]
  · intro h
    rw [hamming_distance, if_pos h]
    exact ⟨rfl, fun n => by simp⟩

/-- Witness for C7 on concrete equal-length and unequal-length tokens. -/
theorem hamming_distance_properties_witness :
    (hamming_distance ['a', 'b'] ['a', 'c'] = hamming_distance ['a', 'c'] ['a', 'b'] ∧
     (['a', 'b'] : List Char).length = (['a', 'c'] : List Char).length ∧
     (hamming_distance ['a', 'b'] ['a', 'c'] = .ok 0 ↔ (['a', 'b'] : List Char) = ['a', 'c'])) ∧
    ((['a'] : List Char).length ≠ (['a', 'b'] : List Char).length ∧
     hamming_distance ['a'] ['a', 'b'] = .error .LengthMismatchError) :=
  ⟨⟨(hamming_distance_properties ['a', 'b'] ['a', 'c']).1, by decide,
    (hamming_distance_properties ['a', 'b'] ['a', 'c']).2.1 (by decide)⟩,
   ⟨by decide, ((hamming_distance_properties ['a'] ['a', 'b']).2.2 (by decide)).1⟩⟩

/-- One successful sample of the Collision Harness: its input string and one
perceptual-hash token (one hashing variant; the phash and dhash analyses of
lines 143-168 are the same computation on the respective map). -/
abbrev Sample := String × List Char

/-- The hash tokens of the samples, in trial order. -/
def hashesOf (samples : List Sample) : List (List Char) := samples.map Prod.snd

/-- The string list mapped to one hash value (the `phash_map[h]` list). -/
def hashGroup (samples : List Sample) (h : List Char) : List String :=
  (samples.filter (fun p => p.2 = h)).map Prod.fst

/-- The exact-collision groups of lines 143/157: hash values whose string
list has more than one member, with those lists.  `dedup` stands for the
distinct dict keys; the key order does not affect any reported count. -/
def collisionGroups (samples : List Sample) : List (List Char × List String) :=
  ((hashesOf samples).dedup.filter (fun h => 1 < (hashGroup samples h).length)).map
    (fun h => (h, hashGroup samples h))

/-- The `num_exact_*_collisions` statistic of lines 144/158: sum of the group
sizes minus the number of groups. -/
def num_exact_collisions (samples : List Sample) : Int :=
  Int.ofNat (((collisionGroups samples).map (fun g => g.2.length)).sum) -
    Int.ofNat ((collisionGroups samples).length)

/-- The failing input for C3: six samples whose hash multiset is
{A, A, B, C, C, C}. -/
def exampleSamples : List Sample :=
  [("s1", ['a']), ("s2", ['a']), ("s3", ['b']),
   ("s4", ['c']), ("s5", ['c']), ("s6", ['c'])]

/-- C3 (code bug): on the hash multiset {A, A, B, C, C, C} the grouping is as
the claim states (group A with 2 strings, group C with 3, B absent), but the
quantity the report labels "Strings in exact collisions" is computed as sum
of group sizes minus number of groups = 3, not the 5 the label and the claim
state. -/
theorem exact_collision_count_mismatch :
    collisionGroups exampleSamples =
      [(['a'], ["s1", "s2"]), (['c'], ["s4", "s5", "s6"])] ∧
    num_exact_collisions exampleSamples = 3 ∧ (3 : Int) ≠ 5 :=
  ⟨by decide, by decide, by decide⟩

/-- The exact-collision rate of lines 187/197, in percent:
`(num / num_processed * 100) if num_processed > 0 else 0`. -/
def exact_rate (samples : List Sample) : ℚ :=
  if 0 < samples.length then
    (num_exact_collisions samples : ℚ) / (samples.length : ℚ) * 100
  else 0

/-- The distinct hash tokens observed (`unique_phashes` / `unique_dhashes`). -/
def uniqueHashes (samples : List Sample) : List (List Char) := (hashesOf samples).dedup

/-- All unordered pairs of list elements, each once: the nested loops over
`i < j` of lines 149-150 / 163-164. -/
def pairsAfter {α : Type} : List α → List (α × α)
  | [] => []
  | x :: xs => xs.map (fun y => (x, y)) ++ pairsAfter xs

/-- The near-collision scan of lines 149-154: Hamming distance of every pair
of distinct hashes, counting those at or below the threshold; a length
mismatch raises out of the loop. -/
def nearScan (thr : Nat) : List (List Char × List Char) → Except HammingError Nat
  | [] => .ok 0
  | p :: rest =>
    match hamming_distance p.1 p.2 with
    | .error e => .error e
    | .ok d =>
      match nearScan thr rest with
      | .error e => .error e
      | .ok c => .ok (if d ≤ thr then c + 1 else c)

/-- The number of near pairs among the distinct hashes (spec-side description
of what the scan counts when no length mismatch occurs). -/
def near_count (samples : List Sample) (thr : Nat) : Nat :=
  ((pairsAfter (uniqueHashes samples)).filter
    (fun p => diffCount p.1 p.2 ≤ thr)).length

/-- The near-collision pair rate of lines 190/200, in percent:
`count / (u * (u - 1) / 2) * 100 if u > 1 else 0`, where `u` is the number of
distinct hashes; `error` when the scan raised. -/
def near_rate (samples : List Sample) (thr : Nat) : Except HammingError ℚ :=
  (nearScan thr (pairsAfter (uniqueHashes samples))).map (fun (n : Nat) =>
    if 1 < (uniqueHashes samples).length then
      (n : ℚ) / (((uniqueHashes samples).length : ℚ) *
        (((uniqueHashes samples).length : ℚ) - 1) / 2) * 100
    else 0)

/-- Samples involved in any exact-collision group: those whose hash token
occurs more than once among the samples (spec-side description). -/
def involvedSamples (samples : List Sample) : Nat :=
  samples.countP (fun p => 1 < (hashesOf samples).countP (fun y => y = p.2))

lemma hashGroup_length (samples : List Sample) (h : List Char) :
    (hashGroup samples h).length = (hashesOf samples).countP (fun y => y = h) := by
  rw [hashGroup, List.length_map, ← List.countP_eq_length_filter, hashesOf,
    List.countP_map]
  rfl

lemma sum_collision_group_sizes (samples : List Sample) :
    ((collisionGroups samples).map (fun g => g.2.length)).sum =
      involvedSamples samples := by
  rw [collisionGroups, List.map_map]
  have hfun : ((fun g : List Char × List String => g.2.length) ∘
      (fun h => (h, hashGroup samples h))) =
      (fun h => (hashesOf samples).countP (fun y => y = h)) := by
    funext h
    exact hashGroup_length samples h
  have hpred : (fun h => decide (1 < (hashGroup samples h).length)) =
      (fun h => decide (1 < (hashesOf samples).countP (fun y => y = h))) := by
    funext h
    rw [hashGroup_length]
  rw [hfun, hpred, involvedSamples]
  have base := List.sum_map_count_dedup_filter_eq_countP
      (fun h => decide (1 < (hashesOf samples).countP (fun y => y = h)))
      (hashesOf samples)
  refine base.trans ?_
  rw [hashesOf, List.countP_map]
  rfl

lemma mem_pairsAfter {α : Type} (l : List α) (p : α × α) (hp : p ∈ pairsAfter l) :
    p.1 ∈ l ∧ p.2 ∈ l := by
  induction l with
  | nil => simp [pairsAfter] at hp
  | cons x xs ih =>
    rw [pairsAfter, List.mem_append] at hp
    rcases hp with h | h
    · obtain ⟨y, hy, hyp⟩ := List.mem_map.mp h
      rw [← hyp]
      exact ⟨List.mem_cons_self x xs, List.mem_cons_of_mem x hy⟩
    · obtain ⟨h1, h2⟩ := ih h
      exact ⟨List.mem_cons_of_mem x h1, List.mem_cons_of_mem x h2⟩

lemma nearScan_ok (thr : Nat) (pairs : List (List Char × List Char))
    (h : ∀ p ∈ pairs, p.1.length = p.2.length) :
    nearScan thr pairs =
      .ok ((pairs.filter (fun p => diffCount p.1 p.2 ≤ thr)).length) := by
  induction pairs with
  | nil => rfl
  | cons p rest ih =>
    have hp : p.1.length = p.2.length := h p (List.mem_cons_self p rest)
    have hr := ih (fun q hq => h q (List.mem_cons_of_mem p hq))
    rw [nearScan, hamming_distance, if_neg (by omega), hr, List.filter_cons]
    by_cases hd : diffCount p.1 p.2 ≤ thr
    · simp [hd]
    · simp [hd]

lemma choose_two_rat (u : Nat) (h : 1 < u) :
    (u : ℚ) * ((u : ℚ) - 1) / 2 = (Nat.choose u 2 : ℚ) := by
  have h1 : 1 ≤ u := le_of_lt h
  have hdvd : 2 ∣ u * (u - 1) := by
    rcases Nat.even_or_odd u with he | ho
    · exact he.two_dvd.mul_right (u - 1)
    · exact ((Nat.Odd.sub_odd ho odd_one).two_dvd).mul_left u
  rw [Nat.choose_two_right, Nat.cast_div hdvd (by norm_num), Nat.cast_mul,
    Nat.cast_sub h1, Nat.cast_one]
  norm_num

/-- Two samples with distinct tokens at Hamming distance 1. -/
def examplePairSamples : List Sample := [("s1", ['a', 'a']), ("s2", ['a', 'b'])]

/-- Two samples sharing one hash token. -/
def exampleDupSamples : List Sample := [("s1", ['a']), ("s2", ['a'])]

/-- C6 counterexample: with two samples of distinct near tokens, u = 2 and
C(u,2) = 1, and the code reports a near rate of 100 percent, not the 0 the
claim requires for denominator 1; with two samples sharing one hash, the code
reports an exact rate of 50 percent where the claim's (samples involved in
any exact group)/(successful samples) is 2/2, i.e. 100 percent. -/
theorem collision_rates_counterexample :
    near_rate examplePairSamples 4 = .ok 100 ∧ (100 : ℚ) ≠ 0 ∧
    exact_rate exampleDupSamples = 50 ∧ (50 : ℚ) ≠ 100 ∧ (50 : ℚ) ≠ 1 := by
  have hu : uniqueHashes examplePairSamples = [['a', 'a'], ['a', 'b']] := by decide
  have hs : nearScan 4 (pairsAfter (uniqueHashes examplePairSamples)) = .ok 1 := by
    rw [hu]; rfl
  refine ⟨?_, by norm_num, ?_, by norm_num, by norm_num⟩
  · rw [near_rate, hs, hu]
    simp only [Except.map]
    norm_num
  · have hg : num_exact_collisions exampleDupSamples = 1 := by decide
    have hl : exampleDupSamples.length = 2 := rfl
    rw [exact_rate, if_pos (by rw [hl]; omega), hg, hl]
    norm_num

/-- C6 (amended): for each hash variant, the exact-collision rate in percent
is 100 * (samples involved in any exact group minus the number of groups) /
(successful samples), 0 when there are no successful samples; the
near-collision rate in percent is 100 * (near pairs found) / C(u,2) where u
is the number of distinct hashes, 0 when u is 0 or 1 (but not when C(u,2) is
1, i.e. u = 2). -/
theorem collision_rates_formulas (samples : List Sample) (thr L : Nat)
    (hlen : ∀ t ∈ uniqueHashes samples, t.length = L) :
    exact_rate samples =
      (if 0 < samples.length then
        ((involvedSamples samples : ℚ) - ((collisionGroups samples).length : ℚ)) /
          (samples.length : ℚ) * 100
      else 0) ∧
    near_rate samples thr =
      .ok (if 1 < (uniqueHashes samples).length then
        (near_count samples thr : ℚ) /
          (Nat.choose (uniqueHashes samples).length 2 : ℚ) * 100
      else 0) := by
  have hnum : num_exact_collisions samples =
      (involvedSamples samples : Int) - ((collisionGroups samples).length : Int) := by
    rw [num_exact_collisions, sum_collision_group_sizes]
    rfl
  constructor
  · rw [exact_rate]
    by_cases h0 : 0 < samples.length
    · rw [if_pos h0, if_pos h0, hnum]
      push_cast
      ring
    · rw [if_neg h0, if_neg h0]
  · have hpairs : ∀ p ∈ pairsAfter (uniqueHashes samples),
        p.1.length = p.2.length := by
      intro p hp
      obtain ⟨h1, h2⟩ := mem_pairsAfter _ p hp
      rw [hlen p.1 h1, hlen p.2 h2]
    rw [near_rate, nearScan_ok thr _ hpairs]
    simp only [Except.map]
    by_cases hu : 1 < (uniqueHashes samples).length
    · rw [if_pos hu, if_pos hu, near_count, choose_two_rat _ hu]
    · rw [if_neg hu, if_neg hu]

/-- Witness for C6's amended theorem at two equal-length tokens. -/
theorem collision_rates_formulas_witness :
    (∀ t ∈ uniqueHashes examplePairSamples, t.length = 2) ∧
    (exact_rate examplePairSamples =
      (if 0 < examplePairSamples.length then
        ((involvedSamples examplePairSamples : ℚ) -
          ((collisionGroups examplePairSamples).length : ℚ)) /
          (examplePairSamples.length : ℚ) * 100
      else 0) ∧
    near_rate examplePairSamples 4 =
      .ok (if 1 < (uniqueHashes examplePairSamples).length then
        (near_count examplePairSamples 4 : ℚ) /
          (Nat.choose (uniqueHashes examplePairSamples).length 2 : ℚ) * 100
      else 0)) :=
  ⟨by decide, collision_rates_formulas examplePairSamples 4 2 (by decide)⟩

/-- Mean of a list of values. -/
def listMean (xs : List ℚ) : ℚ := xs.sum / (xs.length : ℚ)

/-- Deviations from the mean. -/
def centered (xs : List ℚ) : List ℚ := xs.map (fun x => x - listMean xs)

/-- Sum of squared deviations: proportional to the variance, zero exactly
when the variance is zero. -/
def varSum (xs : List ℚ) : ℚ := ((centered xs).map (fun x => x ^ 2)).sum

/-- Sum of products of deviations: proportional to the covariance. -/
def covSum (xs ys : List ℚ) : ℚ :=
  (((centered xs).zip (centered ys)).map (fun p => p.1 * p.2)).sum

/-- The off-diagonal entry of `np.corrcoef(orig_seeds, rev_seeds)` of lines
161-162 of the correlation script: cov / sqrt(var_x * var_y).  It is NaN
exactly when `var_x * var_y = 0` (then the covariance is 0 as well, a 0/0);
NaN is modelled as `none`, and exact real arithmetic stands in for the
floating-point evaluation. -/
noncomputable def corrcoef (xs ys : List ℚ) : Option ℝ :=
  if varSum xs * varSum ys = 0 then none
  else some ((covSum xs ys : ℝ) / Real.sqrt ((varSum xs : ℝ) * (varSum ys : ℝ)))

/-- Lines 165-168: `if np.isnan(correlation): correlation = 0.0`; the value
stored in `correlations[name]`. -/
noncomputable def reported_correlation (xs ys : List ℚ) : ℝ :=
  match corrcoef xs ys with
  | none => 0
  | some c => c

/-- C8: if a parameter's value sequence has zero variance over the processed
samples (either the original or the reversed sequence, making the Pearson
coefficient NaN), the reported correlation is exactly 0 — a real number, not
NaN and not an error. -/
theorem zero_variance_reports_zero (xs ys : List ℚ)
    (h : varSum xs = 0 ∨ varSum ys = 0) :
    reported_correlation xs ys = 0 := by
  have h0 : varSum xs * varSum ys = 0 := by
    rcases h with h | h <;> rw [h] <;> ring
  rw [reported_correlation, corrcoef, if_pos h0]

/-- Witness for C8 on a constant sequence paired with a varying one. -/
theorem zero_variance_reports_zero_witness :
    varSum [1/2, 1/2] = 0 ∧
    reported_correlation [1/2, 1/2] [(0:ℚ), 1] = 0 :=
  ⟨by norm_num [varSum, centered, listMean],
   zero_variance_reports_zero [1/2, 1/2] [(0:ℚ), 1]
     (Or.inl (by norm_num [varSum, centered, listMean]))⟩

/-- Whole-run error of the Correlation Harness: the spec's `NoDataError`
(the "No strings were processed successfully. Exiting." path of lines
136-138 of the correlation script). -/
inductive RunError where
  | NoDataError
deriving DecidableEq

/-- Per-trial extraction outcomes of one Correlation Harness trial:
`extract_parameter_seeds` on the original-string digest and on the
reversed-string digest; `none` stands for the caught-error paths on which
the source returns `None` and the trial is skipped (lines 114-119). -/
abbrev TrialOutcome := Option ParamSeeds × Option ParamSeeds

/-- A trial counts as processed iff both extractions returned a
ParameterSet (lines 117-132). -/
def trial_ok (t : TrialOutcome) : Bool := t.1.isSome && t.2.isSome

/-- The `processed_count` accumulator of the source loop. -/
def processed_count (trials : List TrialOutcome) : Nat := trials.countP trial_ok

/-- The run-level gate of lines 136-138: with zero processed samples the run
stops with `NoDataError` and produces no correlation report; otherwise the
report is produced (abstracted here to the processed count it aggregates
over). -/
def correlation_run (trials : List TrialOutcome) : Except RunError Nat :=
  if processed_count trials = 0 then .error .NoDataError
  else .ok (processed_count trials)

/-- C9: a run with no trials, or with every trial's extraction failing,
signals `NoDataError` (and yields no report); a run with at least one
successfully processed trial never signals `NoDataError`. -/
theorem correlation_run_no_data (trials : List TrialOutcome) :
    (trials = [] → correlation_run trials = .error .NoDataError) ∧
    ((∀ t ∈ trials, trial_ok t = false) →
      correlation_run trials = .error .NoDataError) ∧
    ((∃ t ∈ trials, trial_ok t = true) →
      correlation_run trials ≠ .error .NoDataError) := by
  refine ⟨?_, ?_, ?_⟩
  · intro h
    subst h
    rfl
  · intro h
    have h0 : processed_count trials = 0 := by
      rw [processed_count, List.countP_eq_zero]
      intro t ht
      simp [h t ht]
    rw [correlation_run, if_pos h0]
  · intro h
    have h0 : 0 < processed_count trials := by
      rw [processed_count, List.countP_pos_iff]
      obtain ⟨t, ht, hok⟩ := h
      exact ⟨t, ht, hok⟩
    rw [correlation_run, if_neg (by omega)]
    simp

/-- Witness for C9 on an empty run, an all-failing run and a run with one
successful trial. -/
theorem correlation_run_no_data_witness :
    correlation_run [] = .error .NoDataError ∧
    ((∀ t ∈ [((none, none) : TrialOutcome)], trial_ok t = false) ∧
      correlation_run [((none, none) : TrialOutcome)] = .error .NoDataError) ∧
    ((∃ t ∈ [((some [], some []) : TrialOutcome)], trial_ok t = true) ∧
      correlation_run [((some [], some []) : TrialOutcome)] ≠ .error .NoDataError) :=
  ⟨(correlation_run_no_data []).1 rfl,
   ⟨by decide, (correlation_run_no_data [((none, none) : TrialOutcome)]).2.1 (by decide)⟩,
   ⟨⟨(some [], some []), by decide⟩,
    (correlation_run_no_data [((some [], some []) : TrialOutcome)]).2.2
      ⟨(some [], some []), by decide⟩⟩⟩

/-- The Python error aborting the Collision Harness trial loop: integer
modulo by zero. -/
inductive LoopError where
  | ZeroDivisionError
deriving DecidableEq

/-- The progress-report step of lines 132-133 of the collision script:
evaluating `(i + 1) % (args.num_samples // 20) == 0 or (i + 1) ==
args.num_samples` raises `ZeroDivisionError` whenever `num_samples // 20`
is zero (Python `%` by zero raises, and `or` evaluates its left operand
first); otherwise the step at most prints. -/
def progress_step (num_samples _i : Nat) : Except LoopError Unit :=
  if num_samples / 20 = 0 then .error .ZeroDivisionError else .ok ()

/-- The trial loop of line 69 counted down by remaining trials `k`: each
trial body ends with the progress step (per-sample rendering and hashing
failures are caught by the source and do not affect this step, so they are
abstracted away); returns how many trials completed. -/
def trial_loop (num_samples : Nat) : Nat → Except LoopError Nat
  | 0 => .ok 0
  | k + 1 =>
    match progress_step num_samples (num_samples - (k + 1)) with
    | .error e => .error e
    | .ok _ =>
      match trial_loop num_samples k with
      | .error e => .error e
      | .ok c => .ok (c + 1)

/-- The whole `for i in range(args.num_samples)` loop. -/
def collision_trial_loop (num_samples : Nat) : Except LoopError Nat :=
  trial_loop num_samples num_samples

lemma trial_loop_ok (n : Nat) (hn : ¬ n / 20 = 0) :
    ∀ k, trial_loop n k = .ok k := by
  intro k
  induction k with
  | zero => rfl
  | succ m ih =>
    show trial_loop n (m + 1) = .ok (m + 1)
    simp only [trial_loop, progress_step, if_neg hn, ih]

/-- C10: for `0 < num_samples < 20` the progress step divides by zero on the
first trial and the run aborts with `ZeroDivisionError` before any batch
completes, regardless of sample outcomes; for `num_samples = 0` or
`num_samples ≥ 20` the loop completes all its trials. -/
theorem collision_loop_small_sample_crash (n : Nat) :
    (0 < n → n < 20 → collision_trial_loop n = .error .ZeroDivisionError) ∧
    (n = 0 ∨ 20 ≤ n → collision_trial_loop n = .ok n) := by
  constructor
  · intro h0 h20
    have hdiv : n / 20 = 0 := Nat.div_eq_of_lt h20
    cases n with
    | zero => exact absurd h0 (by omega)
    | succ k =>
      show trial_loop (k + 1) (k + 1) = .error .ZeroDivisionError
      simp only [trial_loop, progress_step, if_pos hdiv]
  · intro h
    rcases h with rfl | h20
    · rfl
    · have hn : ¬ n / 20 = 0 := by
        have : 1 ≤ n / 20 := (Nat.one_le_div_iff (by norm_num)).mpr h20
        omega
      exact trial_loop_ok n hn n

/-- Witness for C10 at 5, 0 and 20 samples. -/
theorem collision_loop_small_sample_crash_witness :
    (0 < 5 ∧ 5 < 20 ∧ collision_trial_loop 5 = .error .ZeroDivisionError) ∧
    collision_trial_loop 0 = .ok 0 ∧ collision_trial_loop 20 = .ok 20 :=
  ⟨⟨by decide, by decide,
    (collision_loop_small_sample_crash 5).1 (by decide) (by decide)⟩,
   (collision_loop_small_sample_crash 0).2 (Or.inl rfl),
   (collision_loop_small_sample_crash 20).2 (Or.inr (by decide))⟩

end HashGrad
